import Mathlib

/-!
Verification of the task-runner harness in `lib/core/threads.py` (functions
`runThreads` and `exceptionHandledFunction`) against its specification.

Shallow embedding conventions:

* Python exceptions become the inductive type `Exc`.  `keyboardInterrupt`
  models `KeyboardInterrupt` (a `BaseException` that is *not* an `Exception`,
  hence not caught by `except Exception`); every other constructor is an
  `Exception` subclass.
* Side effects observable from the supervisor thread (logging calls, the
  blank-line print, spawning a worker thread, invoking the work function,
  releasing a lock, flushing/closing the hash database, invoking the cleanup
  function) are recorded as an ordered trace of `Event`s.
* The mutable global dictionaries `kb` and `conf` become the structures `KB`
  and `Conf`, threaded explicitly.
* Wall-clock time (`time.time()`) is modelled by rationals; the value returned
  inside the cancellation handler is the input `Env.now`.
* A run either returns normally (`outcome = none`) or raises (`outcome =
  some e`).  Python's `return` inside a `finally:` block discards any
  in-flight exception; the embedding reflects this where it occurs
  (the single-worker branch of `runThreads`).
* Worker threads run concurrently; the supervisor trace records their spawn
  (`Event.spawn i`) but not their interleaved execution.  One worker's own
  execution is modelled separately by `exceptionHandledFunction`.
-/

/-- Python exception classes relevant to `threads.py`.  `keyboardInterrupt`
is the only constructor that is not an `Exception` subclass. -/
inductive Exc where
  | keyboardInterrupt
  | userQuit        -- SqlmapUserQuitException
  | skipTarget      -- SqlmapSkipTargetException
  | threadExc       -- SqlmapThreadException
  | connectionExc   -- SqlmapConnectionException
  | valueExc        -- SqlmapValueException
  | sqliteError     -- sqlite3.Error
  | baseExc         -- any other SqlmapBaseException
  | generic         -- any other Exception
deriving DecidableEq, Repr

/-- Observable effects of one `runThreads` call, in supervisor order. -/
inductive Event where
  | workCall            -- threadFunction() invoked synchronously
  | hashDBClose         -- conf.hashDB.close()
  | maxThreadsCritical  -- logger.critical for a request above the maximum
  | singleModeWarn      -- logger.warning about single-thread mode
  | startMsg            -- logger.info announcing thread startup
  | startFailCritical   -- logger.critical when thread.start() raises
  | spawn (i : Nat)     -- a worker thread named str(i) was started
  | printBlank          -- print() separating worker output
  | waitInfo            -- logger.info while waiting for threads to finish
  | logError            -- any logger.error call
  | traceback           -- traceback.print_exc()
  | lockReleaseAttempt (i : Nat)  -- lock.release() attempted on kb.locks[i]
  | hashDBFlush         -- conf.hashDB.flush(True)
  | cleanupCall         -- cleanupFunction() invoked
deriving DecidableEq, Repr

/-- Injection techniques, from `PAYLOAD.TECHNIQUE` (module not in the
excerpt; only membership in the pair TIME/STACKED matters here). -/
inductive Technique where
  | BOOLEAN | ERROR | QUERY | STACKED | TIME | UNION
deriving DecidableEq, Repr

/-- One entry of `kb.locks`: whether it is currently held, and whether its
`release()` call would raise (the harness swallows such failures with a bare
`except`). -/
structure Lock where
  locked : Bool
  releaseRaises : Bool
deriving DecidableEq, Repr

/-- The fields of the global `kb` dictionary touched by `threads.py`. -/
structure KB where
  multipleCtrlC : Bool
  threadContinue : Bool
  threadException : Bool
  multiThreadMode : Bool
  prependFlag : Bool
  lastCtrlCTime : Option ℚ   -- falsy when absent or zero
  technique : Option Nat
  injectionData : List Technique  -- keys of kb.injection.data
  locks : List Lock
deriving DecidableEq, Repr

/-- The fields of the global `conf` dictionary touched by `threads.py`. -/
structure Conf where
  threads : Nat
  hashDB : Bool    -- truthiness of conf.hashDB
  verbose : Nat
deriving DecidableEq, Repr

/-! ### Interactive thread-count prompt (runThreads lines 137-158) -/

/-- Modelled from the spec: `isDigit` is a stub in the excerpt ("will be
overwritten by original from lib.core.common"); the original returns whether
the string is non-empty and consists solely of digits. -/
def isDigit (s : List Char) : Bool :=
  !s.isEmpty && s.all Char.isDigit

/-- Python `int(...)` on a digit string (decimal). -/
def intVal (s : List Char) : Nat :=
  s.foldl (fun a c => 10 * a + (c.toNat - 48)) 0

/-- Outcome of one iteration of the `while True` prompt loop. -/
inductive PromptStep where
  | ignored            -- empty or non-numeric input: prompt again
  | rejected           -- above the maximum without the override: prompt again
  | accepted (n : Nat) -- value accepted, loop breaks
deriving DecidableEq, Repr

/-- One iteration of the prompt loop, applied to the string returned by
`readInput`: an empty string is ignored; a trailing `!` is stripped and sets
`skipThreadCheck`; a digit string above `maxT` without the override is
rejected with a `logger.critical` message; otherwise the value is accepted. -/
def promptIteration (maxT : Nat) (choice : List Char) : List Event × PromptStep :=
  if choice.isEmpty then ([], PromptStep.ignored)
  else
    let skip := choice.getLast? = some '!'
    let c := if skip then choice.dropLast else choice
    if isDigit c then
      if intVal c > maxT ∧ ¬skip then ([Event.maxThreadsCritical], PromptStep.rejected)
      else ([], PromptStep.accepted (intVal c))
    else ([], PromptStep.ignored)

/-- The prompt loop folded over the successive strings returned by
`readInput`; `none` means no input in the list was accepted (the Python loop
would keep prompting). -/
def promptResolve (maxT : Nat) : List (List Char) → List Event × Option Nat
  | [] => ([], none)
  | c :: rest =>
      match promptIteration maxT c with
      | (evs, PromptStep.accepted n) => (evs, some n)
      | (evs, _) =>
          let r := promptResolve maxT rest
          (evs ++ r.1, r.2)

/-! Small facts about digit strings used for the prompt theorem. -/

theorem isDigit_getLast_ne_bang {s : List Char} (h : isDigit s = true) :
    ¬ s.getLast? = some '!' := by
  intro hlast
  rcases s with _ | ⟨a, t⟩
  · simp at hlast
  · have hmem : '!' ∈ a :: t := by
      have := List.getLast?_eq_getLast (a :: t) (by simp)
      rw [hlast] at this
      have hg : (a :: t).getLast (by simp) = '!' := by
        injection this.symm
      rw [← hg]
      exact List.getLast_mem _
    have hall : ∀ c ∈ a :: t, Char.isDigit c = true := by
      simp only [isDigit, Bool.and_eq_true, List.all_eq_true] at h
      exact h.2
    have := hall '!' hmem
    simp [Char.isDigit] at this

/-- C9: a numeric request strictly above the configured maximum is rejected
(with a critical log message) when the trailing override sentinel `!` is
absent; with the sentinel appended, the sentinel is stripped before parsing,
the upper-bound check is bypassed, and the accepted value equals the numeric
value of the digits without the sentinel. -/
theorem prompt_max_override (maxT : Nat) (s : List Char)
    (hd : isDigit s = true) (hv : intVal s > maxT) :
    promptIteration maxT s = ([Event.maxThreadsCritical], PromptStep.rejected)
    ∧ promptIteration maxT (s ++ ['!']) = ([], PromptStep.accepted (intVal s)) := by
  have hne : s ≠ [] := by
    intro h
    subst h
    simp [isDigit] at hd
  have hskip : ¬ s.getLast? = some '!' := isDigit_getLast_ne_bang hd
  constructor
  · simp only [promptIteration]
    rw [if_neg (show ¬ s.isEmpty = true by simp [hne])]
    rw [if_neg hskip, if_pos hd, if_pos (And.intro hv hskip)]
  · have h1 : (s ++ ['!']).getLast? = some '!' := by
      simp [List.getLast?_concat]
    have h2 : (s ++ ['!']).dropLast = s := by
      simp [List.dropLast_concat]
    simp only [promptIteration]
    rw [if_neg (show ¬ (s ++ ['!']).isEmpty = true by simp)]
    rw [if_pos h1, h2, if_pos hd]
    rw [if_neg (fun hcon => hcon.2 h1)]

/-- Witness for `prompt_max_override` at maximum 7 and input "9". -/
theorem prompt_max_override_witness :
    promptIteration 7 ['9'] = ([Event.maxThreadsCritical], PromptStep.rejected)
    ∧ promptIteration 7 ['9', '!'] = ([], PromptStep.accepted 9) := by
  have h := prompt_max_override 7 ['9'] (by decide) (by decide)
  exact ⟨h.1, h.2⟩

/-! ### Fault-isolation adapter (exceptionHandledFunction, lines 96-111)

The adapter calls the worker function, whose execution is summarised by the
events it emitted (`innerEvents`) and the exception it raised, if any
(`innerExc`).  `KeyboardInterrupt` sets the shared flags and is re-raised;
any other exception is swallowed, with a `logger.error` entry (and an
optional traceback) only when `silent` is off, `kb.threadContinue` is set,
`kb.multipleCtrlC` is unset and the exception is not one of the whitelisted
UserQuit/SkipTarget signals. -/
def exceptionHandledFunction (innerEvents : List Event) (innerExc : Option Exc)
    (silent : Bool) (kb : KB) (conf : Conf) : List Event × KB × Option Exc :=
  match innerExc with
  | none => (innerEvents, kb, none)
  | some e =>
      if e = Exc.keyboardInterrupt then
        (innerEvents, { kb with threadContinue := false, threadException := true },
         some Exc.keyboardInterrupt)
      else if silent = false ∧ kb.threadContinue = true ∧ kb.multipleCtrlC = false
              ∧ e ≠ Exc.userQuit ∧ e ≠ Exc.skipTarget then
        (innerEvents ++ [Event.logError]
           ++ (if conf.verbose > 1 ∧ e ≠ Exc.connectionExc then [Event.traceback] else []),
         kb, none)
      else (innerEvents, kb, none)

/-- A concrete run state in which the run is no longer continuing
(`kb.threadContinue = false`), as after a first cancellation signal. -/
def kbStopped : KB :=
  { multipleCtrlC := false
    threadContinue := false
    threadException := true
    multiThreadMode := true
    prependFlag := false
    lastCtrlCTime := none
    technique := none
    injectionData := []
    locks := [] }

/-- A concrete configuration with default verbosity. -/
def confBasic : Conf :=
  { threads := 2, hashDB := false, verbose := 1 }

/-- C4 counterexample: with the default `silent = false`, a generic worker
exception raised while `kb.threadContinue` is already false vanishes without
any log entry — the adapter emits no event at all and does not re-raise —
refuting the claim that only UserQuit/SkipTarget terminate without a log
entry. -/
theorem adapter_silent_loss_counterexample :
    exceptionHandledFunction [] (some Exc.generic) false kbStopped confBasic
      = ([], kbStopped, none)
    ∧ Exc.generic ≠ Exc.userQuit ∧ Exc.generic ≠ Exc.skipTarget := by
  refine ⟨?_, by decide, by decide⟩
  decide

/-- C4 amended: while the run is still continuing (`kb.threadContinue` set,
`kb.multipleCtrlC` unset) and silent mode is not requested, the adapter never
lets a worker exception vanish without producing a log entry, the sole
whitelisted exceptions being UserQuit and SkipTarget, which are swallowed
silently by design (KeyboardInterrupt is not swallowed at all: it is
re-raised after setting the shared flags). -/
theorem adapter_always_logs (innerEvents : List Event) (e : Exc) (kb : KB) (conf : Conf)
    (hc : kb.threadContinue = true) (hm : kb.multipleCtrlC = false) :
    (e ≠ Exc.keyboardInterrupt → e ≠ Exc.userQuit → e ≠ Exc.skipTarget →
      Event.logError ∈ (exceptionHandledFunction innerEvents (some e) false kb conf).1
      ∧ (exceptionHandledFunction innerEvents (some e) false kb conf).2.2 = none)
    ∧ (e = Exc.userQuit ∨ e = Exc.skipTarget →
      (exceptionHandledFunction innerEvents (some e) false kb conf).1 = innerEvents
      ∧ (exceptionHandledFunction innerEvents (some e) false kb conf).2.2 = none)
    ∧ (exceptionHandledFunction innerEvents (some Exc.keyboardInterrupt) false kb conf).2.2
        = some Exc.keyboardInterrupt := by
  refine ⟨?_, ?_, ?_⟩
  · intro hki hq hs
    simp [exceptionHandledFunction, hki, hq, hs, hc, hm]
  · intro hqs
    rcases hqs with h | h <;> subst h <;>
      simp [exceptionHandledFunction]
  · simp [exceptionHandledFunction]

/-- Witness for `adapter_always_logs` on a continuing run with a generic
worker exception: the adapter logs it and swallows it. -/
theorem adapter_always_logs_witness :
    Event.logError ∈ (exceptionHandledFunction [] (some Exc.generic) false
        { kbStopped with threadContinue := true } confBasic).1
    ∧ (exceptionHandledFunction [] (some Exc.generic) false
        { kbStopped with threadContinue := true } confBasic).2.2 = none := by
  have h := adapter_always_logs [] Exc.generic
      { kbStopped with threadContinue := true } confBasic rfl rfl
  exact h.1 (by decide) (by decide) (by decide)

/-! ### The runThreads supervisor (lines 120-262)

One call of `runThreads` is driven by its arguments together with the
externally determined dynamics of the run, bundled in `Env`:

* `workExc` — the exception, if any, raised by `threadFunction` when the
  single-worker branch invokes it synchronously;
* `superExc` — the exception, if any, delivered to the supervisor during the
  spawn/poll phase of the multi-worker branch (e.g. `KeyboardInterrupt` from
  a Ctrl+C, which the worker threads cannot propagate themselves);
* `startFailAt` — the index at which `thread.start()` raises, if any
  (the loop logs a critical message and breaks there);
* `now` — the value of `time.time()` inside the cancellation handler;
* `secondCancelDuringWait` — whether a second `KeyboardInterrupt` arrives
  while the handler busy-waits on `threading.active_count() > 1`;
* `promptInputs` — the successive strings returned by `readInput` in the
  interactive thread-count prompt;
* `maxT` — the value of `MAX_NUMBER_OF_THREADS` (the settings module is not
  part of the excerpt, so the bound is kept as a parameter). -/
structure Env where
  numThreads : Nat
  forwardException : Bool
  threadChoice : Bool
  startThreadMsg : Bool
  cleanupProvided : Bool
  maxT : Nat
  promptInputs : List (List Char)
  workExc : Option Exc
  superExc : Option Exc
  startFailAt : Option Nat
  secondCancelDuringWait : Bool
  now : ℚ
  tdTechnique : Option Nat
deriving DecidableEq, Repr

/-- The result of one `runThreads` call: the supervisor event trace, the
final global state, and the run outcome (`none` for a normal return, `some e`
for a raised exception). -/
structure RunResult where
  events : List Event
  conf : Conf
  kb : KB
  outcome : Option Exc
deriving DecidableEq, Repr

/-- Lines 130-134: the run-state reset performed on entry. -/
def kbInit (env : Env) (kb0 : KB) : KB :=
  { kb0 with
      multipleCtrlC := false
      threadContinue := true
      threadException := false
      technique := env.tdTechnique
      multiThreadMode := false }

/-- Line 137: the guard for the interactive thread-count prompt —
`threadChoice` requested, `conf.threads == numThreads == 1`, and the
recorded injection data does not consist exclusively of time-based or
stacked techniques. -/
def promptGate (env : Env) (confThreads : Nat) (inj : List Technique) : Bool :=
  env.threadChoice && (confThreads == env.numThreads) && (env.numThreads == 1)
    && !(!inj.isEmpty && inj.all fun t => t == Technique.TIME || t == Technique.STACKED)

/-- The thread count in force after the optional interactive prompt; `none`
when the prompt loop never accepts a value (the Python loop would prompt
forever). -/
def resolvedThreads (env : Env) (confThreads : Nat) (inj : List Technique) : Option Nat :=
  if promptGate env confThreads inj then (promptResolve env.maxT env.promptInputs).2
  else some env.numThreads

/-- The outcome of the `try:` block (lines 136-196): the events emitted, the
updated `conf` and `kb`, the resolved thread count, and the exception (if
any) escaping the block.  The single-worker branch (lines 164-170) executes
`_threadFunction` synchronously — emitting `workCall` and, when a hash
database is configured, the `close()` of its per-thread handle — and its
`return` inside `finally:` discards every exception, so that branch never
lets one escape.  The multi-worker branch spawns the workers (stopping early
with a critical log entry if `thread.start()` raises) and then polls them;
`superExc` is what escapes the block there. -/
structure BodyOut where
  events : List Event
  conf : Conf
  kb : KB
  resolved : Nat
  exc : Option Exc
deriving DecidableEq, Repr

/-- The number of workers actually started: all `n`, unless `thread.start()`
raises at index `k`, in which case only `0..k-1` were started. -/
def spawnCount (env : Env) (n : Nat) : Nat :=
  match env.startFailAt with
  | some k => min k n
  | none => n

/-- The critical log entry emitted when `thread.start()` raises inside the
spawn loop (line 183-184), before the loop breaks. -/
def startFailEvents (env : Env) (n : Nat) : List Event :=
  match env.startFailAt with
  | some k => if k < n then [Event.startFailCritical] else []
  | none => []

def tryBody (env : Env) (conf : Conf) (kb : KB) : Option BodyOut :=
  let gate := promptGate env conf.threads kb.injectionData
  let pEvs := if gate then (promptResolve env.maxT env.promptInputs).1 else []
  match resolvedThreads env conf.threads kb.injectionData with
  | none => none
  | some n =>
      let conf1 := if gate then { conf with threads := n } else conf
      let evs0 := pEvs ++ (if gate ∧ n = 1 then [Event.singleModeWarn] else [])
      if n > 1 then
        let evs1 := evs0 ++ (if env.startThreadMsg then [Event.startMsg] else [])
        some { events := evs1 ++ (List.range (spawnCount env n)).map Event.spawn
                 ++ startFailEvents env n
               conf := conf1
               kb := { kb with multiThreadMode := true }
               resolved := n
               exc := env.superExc }
      else
        some { events := evs0 ++ [Event.workCall]
                 ++ (if conf1.hashDB then [Event.hashDBClose] else [])
               conf := conf1
               kb := kb
               resolved := n
               exc := none }

/-- Line 204: truthiness of `kb.lastCtrlCTime` combined with the escalation
window check `time.time() - kb.lastCtrlCTime < 1`. -/
def ctrlCRecent (last : Option ℚ) (now : ℚ) : Bool :=
  match last with
  | none => false
  | some t => decide (t ≠ 0) && decide (now - t < 1)

/-- Lines 198-221: the handler for `KeyboardInterrupt` and
`SqlmapUserQuitException`.  It prints a blank line, clears `prependFlag`,
stops the run (`threadContinue := false`, `threadException := true`); if a
previous cancellation is recorded less than one second ago it flags
`multipleCtrlC` and raises a fresh `SqlmapUserQuitException`; otherwise it
records the time, waits for the workers (logging an info message when more
than one was requested), escalates to `SqlmapThreadException` with
`multipleCtrlC` set if a second interrupt arrives during that wait, and
finally re-raises the original exception only when `forwardException` is
set. -/
def cancelHandler (env : Env) (n : Nat) (kb : KB) (ex : Exc) : List Event × KB × Option Exc :=
  let kb1 := { kb with prependFlag := false, threadContinue := false, threadException := true }
  if ctrlCRecent kb1.lastCtrlCTime env.now then
    ([Event.printBlank], { kb1 with multipleCtrlC := true }, some Exc.userQuit)
  else
    let kb2 := { kb1 with lastCtrlCTime := some env.now }
    let evs := [Event.printBlank] ++ (if n > 1 then [Event.waitInfo] else [])
    if env.secondCancelDuringWait then
      (evs, { kb2 with multipleCtrlC := true }, some Exc.threadExc)
    else
      (evs, kb2, if env.forwardException then some ex else none)

/-- Lines 223-229: the handler for connection/value failures.  It prints a
blank line, marks the exception flag and logs the error.  The subsequent
verbosity check reads `conf.get("详细的")`: no command-line option sets that
key (the verbosity dest is `verbose`), so the lookup yields `None` and the
comparison `None > 1` raises a `TypeError` under Python 3, which escapes the
handler (modelled as `Exc.generic`). -/
def connValueHandler (kb : KB) : List Event × KB × Option Exc :=
  ([Event.printBlank, Event.logError], { kb with threadException := true }, some Exc.generic)

/-- Lines 231-243: the generic `except Exception` handler.  It prints a
blank line; then, unless `multipleCtrlC` was flagged, it re-raises a
`sqlite3.Error` unchanged and otherwise records the exception flag, logs an
unhandled-exception message and prints the traceback. -/
def genericHandler (kb : KB) (ex : Exc) : List Event × KB × Option Exc :=
  if kb.multipleCtrlC then ([Event.printBlank], kb, none)
  else if ex = Exc.sqliteError then ([Event.printBlank], kb, some Exc.sqliteError)
  else ([Event.printBlank, Event.logError, Event.traceback],
        { kb with threadException := true }, none)

/-- Dispatch of an exception escaping the `try:` block over the three
`except` clauses, in source order: `(KeyboardInterrupt,
SqlmapUserQuitException)` first, then `(SqlmapConnectionException,
SqlmapValueException)`, then `Exception` (which every remaining constructor
other than `keyboardInterrupt` is an instance of). -/
def dispatch (env : Env) (n : Nat) (kb : KB) : Option Exc → List Event × KB × Option Exc
  | none => ([], kb, none)
  | some e =>
      if e = Exc.keyboardInterrupt ∨ e = Exc.userQuit then cancelHandler env n kb e
      else if e = Exc.connectionExc ∨ e = Exc.valueExc then connValueHandler kb
      else genericHandler kb e

/-- Lines 251-256: the release loop over `kb.locks.values()` — every lock
currently held gets a `release()` attempt, each wrapped in a bare
`try/except` so one failure cannot stop the iteration. -/
def releaseLocksAux : Nat → List Lock → List Event
  | _, [] => []
  | i, l :: ls =>
      (if l.locked then [Event.lockReleaseAttempt i] else []) ++ releaseLocksAux (i + 1) ls

def releaseLocks (locks : List Lock) : List Event :=
  releaseLocksAux 0 locks

/-- The lock states after the release loop: a held lock whose `release()`
does not raise becomes free; all others are unchanged. -/
def releaseLocksState (locks : List Lock) : List Lock :=
  locks.map fun l => if l.locked && !l.releaseRaises then { l with locked := false } else l

/-- Lines 245-262: the `finally:` block — reset the run-state flags, release
every held lock (best effort), flush the hash database when configured, then
invoke the cleanup function when provided. -/
def teardown (env : Env) (conf : Conf) (kb : KB) : List Event × KB :=
  (releaseLocks kb.locks
     ++ (if conf.hashDB then [Event.hashDBFlush] else [])
     ++ (if env.cleanupProvided then [Event.cleanupCall] else []),
   { kb with
       multiThreadMode := false
       threadContinue := true
       threadException := false
       technique := none
       locks := releaseLocksState kb.locks })

/-- The whole of `runThreads`: reset the shared state, run the `try:` block,
dispatch any escaping exception over the `except` clauses, then run the
`finally:` block; the exception left pending by the `except` phase (if any)
is re-raised after it.  `none` means the interactive prompt never accepted a
value. -/
def runThreads (env : Env) (conf0 : Conf) (kb0 : KB) : Option RunResult :=
  match tryBody env conf0 (kbInit env kb0) with
  | none => none
  | some b =>
      let d := dispatch env b.resolved b.kb b.exc
      let t := teardown env b.conf d.2.1
      some { events := b.events ++ d.1 ++ t.1
             conf := b.conf
             kb := t.2
             outcome := d.2.2 }

/-! ### Helper lemmas about the model -/

/-- Events belonging to the teardown phase: lock release attempts, the hash
database flush and the cleanup invocation. -/
def Event.isTeardown : Event → Bool
  | Event.lockReleaseAttempt _ => true
  | Event.hashDBFlush => true
  | Event.cleanupCall => true
  | _ => false

theorem promptIteration_events (maxT : Nat) (c : List Char) :
    (promptIteration maxT c).1 = [] ∨ (promptIteration maxT c).1 = [Event.maxThreadsCritical] := by
  simp only [promptIteration]
  repeat' split
  all_goals simp

theorem promptResolve_events (maxT : Nat) (l : List (List Char)) :
    ∀ e ∈ (promptResolve maxT l).1, e = Event.maxThreadsCritical := by
  induction l with
  | nil => simp [promptResolve]
  | cons c rest ih =>
      intro e he
      have hc := promptIteration_events maxT c
      simp only [promptResolve] at he
      rcases hstep : promptIteration maxT c with ⟨evs, step⟩
      rw [hstep] at he
      have hevs : evs = [] ∨ evs = [Event.maxThreadsCritical] := by
        rw [hstep] at hc
        exact hc
      cases step with
      | accepted n =>
          simp only at he
          rcases hevs with h | h <;> subst h <;> simp at he
          exact he
      | ignored =>
          simp only [List.mem_append] at he
          rcases he with h | h
          · rcases hevs with h2 | h2 <;> subst h2 <;> simp at h
            exact h
          · exact ih e h
      | rejected =>
          simp only [List.mem_append] at he
          rcases he with h | h
          · rcases hevs with h2 | h2 <;> subst h2 <;> simp at h
            exact h
          · exact ih e h

theorem releaseLocksAux_shape (locks : List Lock) :
    ∀ i, ∀ e ∈ releaseLocksAux i locks, ∃ j, e = Event.lockReleaseAttempt j := by
  induction locks with
  | nil => intro i e he; simp [releaseLocksAux] at he
  | cons l ls ih =>
      intro i e he
      simp only [releaseLocksAux, List.mem_append] at he
      rcases he with h | h
      · rcases hl : l.locked with _ | _ <;> rw [hl] at h <;> simp at h
        exact ⟨i, h⟩
      · exact ih (i + 1) e h

theorem mem_releaseLocksAux (locks : List Lock) :
    ∀ i j, Event.lockReleaseAttempt j ∈ releaseLocksAux i locks ↔
      ∃ k, ∃ hk : k < locks.length, j = i + k ∧ (locks.get ⟨k, hk⟩).locked = true := by
  induction locks with
  | nil => intro i j; simp [releaseLocksAux]
  | cons l ls ih =>
      intro i j
      simp only [releaseLocksAux, List.mem_append]
      constructor
      · intro h
        rcases h with h | h
        · rcases hl : l.locked with _ | _ <;> rw [hl] at h <;> simp at h
          exact ⟨0, by simp, by omega, by simpa using hl⟩
        · rcases (ih (i + 1) j).mp h with ⟨k, hk, hj, hlk⟩
          exact ⟨k + 1, by simpa using Nat.succ_lt_succ hk, by omega, by simpa using hlk⟩
      · rintro ⟨k, hk, hj, hlk⟩
        cases k with
        | zero =>
            left
            have : l.locked = true := by simpa using hlk
            simp [this, hj]
        | succ k' =>
            right
            refine (ih (i + 1) j).mpr ⟨k', by simpa using Nat.lt_of_succ_lt_succ hk, by omega, ?_⟩
            simpa using hlk

theorem mem_releaseLocks (locks : List Lock) (i : Nat) :
    Event.lockReleaseAttempt i ∈ releaseLocks locks ↔
      ∃ hi : i < locks.length, (locks.get ⟨i, hi⟩).locked = true := by
  rw [releaseLocks, mem_releaseLocksAux]
  constructor
  · rintro ⟨k, hk, hj, hlk⟩
    have : k = i := by omega
    subst this
    exact ⟨hk, hlk⟩
  · rintro ⟨hi, hl⟩
    exact ⟨i, hi, by omega, hl⟩

theorem releaseLocks_count_cleanup (locks : List Lock) :
    (releaseLocks locks).count Event.cleanupCall = 0 := by
  rw [List.count_eq_zero]
  intro hmem
  rcases releaseLocksAux_shape locks 0 Event.cleanupCall hmem with ⟨j, hj⟩
  cases hj

/-- Inversion of a successful `runThreads` call into its three phases. -/
theorem runThreads_some {env : Env} {conf0 : Conf} {kb0 : KB} {r : RunResult}
    (h : runThreads env conf0 kb0 = some r) :
    ∃ b, tryBody env conf0 (kbInit env kb0) = some b
      ∧ r.events = b.events ++ (dispatch env b.resolved b.kb b.exc).1
          ++ (teardown env b.conf (dispatch env b.resolved b.kb b.exc).2.1).1
      ∧ r.conf = b.conf
      ∧ r.kb = (teardown env b.conf (dispatch env b.resolved b.kb b.exc).2.1).2
      ∧ r.outcome = (dispatch env b.resolved b.kb b.exc).2.2 := by
  rcases htb : tryBody env conf0 (kbInit env kb0) with _ | b
  · rw [runThreads, htb] at h
    cases h
  · rw [runThreads, htb] at h
    simp only [Option.some.injEq] at h
    subst h
    exact ⟨b, rfl, rfl, rfl, rfl, rfl⟩

theorem mem_ite_or {α : Type} {p : Prop} [Decidable p] {a : α} {l m : List α}
    (h : a ∈ (if p then l else m)) : a ∈ l ∨ a ∈ m := by
  split at h
  · exact Or.inl h
  · exact Or.inr h


theorem startFailEvents_shape (env : Env) (n : Nat) :
    ∀ e ∈ startFailEvents env n, e = Event.startFailCritical := by
  intro e he
  rcases hsf : env.startFailAt with _ | k
  · simp [startFailEvents, hsf] at he
  · simp only [startFailEvents, hsf] at he
    rcases mem_ite_or he with h | h
    · simpa using h
    · simp at h

/-- Inversion of a successful `tryBody`: state preservation, the resolved
thread count, and the shape of the two branches. -/
theorem tryBody_cases {env : Env} {conf : Conf} {kb : KB} {b : BodyOut}
    (h : tryBody env conf kb = some b) :
    resolvedThreads env conf.threads kb.injectionData = some b.resolved
    ∧ b.conf.hashDB = conf.hashDB
    ∧ b.kb.locks = kb.locks
    ∧ b.kb.lastCtrlCTime = kb.lastCtrlCTime
    ∧ b.kb.multipleCtrlC = kb.multipleCtrlC
    ∧ ((b.resolved ≤ 1 ∧ b.exc = none ∧ b.kb = kb
         ∧ b.events.count Event.workCall = 1 ∧ (∀ i, Event.spawn i ∉ b.events))
       ∨ (1 < b.resolved ∧ b.exc = env.superExc
         ∧ b.kb = { kb with multiThreadMode := true }
         ∧ Event.workCall ∉ b.events))
    ∧ (∀ e ∈ b.events, e = Event.maxThreadsCritical ∨ e = Event.singleModeWarn
         ∨ e = Event.startMsg ∨ e = Event.startFailCritical
         ∨ (∃ i, e = Event.spawn i) ∨ e = Event.workCall ∨ e = Event.hashDBClose) := by
  rcases hres : resolvedThreads env conf.threads kb.injectionData with _ | n
  · simp only [tryBody, hres] at h
    exact Option.noConfusion h
  · simp only [tryBody, hres] at h
    by_cases hn : n > 1
    · rw [if_pos hn] at h
      simp only [Option.some.injEq] at h
      subst h
      refine ⟨rfl, ?_, rfl, rfl, rfl, Or.inr ⟨hn, rfl, rfl, ?_⟩, ?_⟩
      · split <;> rfl
      · intro hmem
        simp only [List.mem_append, or_assoc] at hmem
        rcases hmem with hm | hm | hm | hm | hm
        · rcases mem_ite_or hm with h1 | h1
          · have := promptResolve_events env.maxT env.promptInputs _ h1
            simp at this
          · simp at h1
        · rcases mem_ite_or hm with h1 | h1 <;> simp at h1
        · rcases mem_ite_or hm with h1 | h1 <;> simp at h1
        · simp at hm
        · have := startFailEvents_shape env n _ hm
          simp at this
      · intro e hmem
        simp only [List.mem_append, or_assoc] at hmem
        rcases hmem with hm | hm | hm | hm | hm
        · rcases mem_ite_or hm with h1 | h1
          · exact Or.inl (promptResolve_events env.maxT env.promptInputs _ h1)
          · simp at h1
        · rcases mem_ite_or hm with h1 | h1
          · simp at h1
            exact Or.inr (Or.inl h1)
          · simp at h1
        · rcases mem_ite_or hm with h1 | h1
          · simp at h1
            exact Or.inr (Or.inr (Or.inl h1))
          · simp at h1
        · simp only [List.mem_map, List.mem_range] at hm
          rcases hm with ⟨i, _, hi⟩
          exact Or.inr (Or.inr (Or.inr (Or.inr (Or.inl ⟨i, hi.symm⟩))))
        · exact Or.inr (Or.inr (Or.inr (Or.inl (startFailEvents_shape env n _ hm))))
    · rw [if_neg hn] at h
      simp only [Option.some.injEq] at h
      subst h
      refine ⟨rfl, ?_, rfl, rfl, rfl, Or.inl ⟨Nat.not_lt.mp hn, rfl, rfl, ?_, ?_⟩, ?_⟩
      · split <;> rfl
      · have hA : Event.workCall ∉ (if promptGate env conf.threads kb.injectionData then
            (promptResolve env.maxT env.promptInputs).1 else []) := by
          intro hmem
          rcases mem_ite_or hmem with h1 | h1
          · have := promptResolve_events env.maxT env.promptInputs _ h1
            simp at this
          · simp at h1
        have hB : Event.workCall ∉ (if promptGate env conf.threads kb.injectionData ∧ n = 1 then
            [Event.singleModeWarn] else []) := by
          intro hmem
          rcases mem_ite_or hmem with h1 | h1 <;> simp at h1
        have hC : Event.workCall ∉ (if (if promptGate env conf.threads kb.injectionData then
            { conf with threads := n } else conf).hashDB then [Event.hashDBClose] else []) := by
          intro hmem
          rcases mem_ite_or hmem with h1 | h1 <;> simp at h1
        simp only [List.count_append, List.count_eq_zero.mpr hA, List.count_eq_zero.mpr hB,
          List.count_eq_zero.mpr hC]
        simp
      · intro i hmem
        simp only [List.mem_append, or_assoc] at hmem
        rcases hmem with hm | hm | hm | hm
        · rcases mem_ite_or hm with h1 | h1
          · have := promptResolve_events env.maxT env.promptInputs _ h1
            simp at this
          · simp at h1
        · rcases mem_ite_or hm with h1 | h1 <;> simp at h1
        · simp at hm
        · rcases mem_ite_or hm with h1 | h1 <;> simp at h1
      · intro e hmem
        simp only [List.mem_append, or_assoc] at hmem
        rcases hmem with hm | hm | hm | hm
        · rcases mem_ite_or hm with h1 | h1
          · exact Or.inl (promptResolve_events env.maxT env.promptInputs _ h1)
          · simp at h1
        · rcases mem_ite_or hm with h1 | h1
          · simp at h1
            exact Or.inr (Or.inl h1)
          · simp at h1
        · simp at hm
          exact Or.inr (Or.inr (Or.inr (Or.inr (Or.inr (Or.inl hm)))))
        · rcases mem_ite_or hm with h1 | h1
          · simp at h1
            exact Or.inr (Or.inr (Or.inr (Or.inr (Or.inr (Or.inr h1)))))
          · simp at h1

/-- Shape of the events emitted by the `except` phase, and preservation of
the lock table by every handler. -/
theorem dispatch_shape (env : Env) (n : Nat) (kb : KB) (o : Option Exc) :
    (∀ e ∈ (dispatch env n kb o).1, e = Event.printBlank ∨ e = Event.waitInfo
       ∨ e = Event.logError ∨ e = Event.traceback)
    ∧ (dispatch env n kb o).2.1.locks = kb.locks := by
  rcases o with _ | ex
  · exact ⟨by simp [dispatch], rfl⟩
  · simp only [dispatch]
    split
    · constructor
      · intro e he
        simp only [cancelHandler] at he
        split at he
        · simp at he
          simp [he]
        · split at he <;>
          · simp at he
            rcases he with h | h
            · simp [h]
            · simp [h.2]
      · simp only [cancelHandler]
        split
        · rfl
        · split <;> rfl
    · split
      · constructor
        · intro e he
          simp only [connValueHandler] at he
          simp at he
          rcases he with h | h <;> simp [h]
        · rfl
      · constructor
        · intro e he
          simp only [genericHandler] at he
          split at he
          · simp at he
            simp [he]
          · split at he
            · simp at he
              simp [he]
            · simp at he
              rcases he with h | h | h <;> simp [h]
        · simp only [genericHandler]
          split
          · rfl
          · split <;> rfl

/-- The cancellation handler when a previous cancellation is recorded within
the escalation window: `multipleCtrlC` is flagged and a fresh
`SqlmapUserQuitException` is raised. -/
theorem dispatch_cancel_recent {env : Env} {n : Nat} {kb : KB} {e : Exc}
    (he : e = Exc.keyboardInterrupt ∨ e = Exc.userQuit)
    (hr : ctrlCRecent kb.lastCtrlCTime env.now = true) :
    (dispatch env n kb (some e)).2.2 = some Exc.userQuit
    ∧ (dispatch env n kb (some e)).2.1.multipleCtrlC = true := by
  rcases he with he | he <;> subst he <;> simp [dispatch, cancelHandler, hr]

/-- The cancellation handler when no recent cancellation is recorded but a
second interrupt arrives during the wait for the workers: `multipleCtrlC` is
flagged and `SqlmapThreadException` is raised. -/
theorem dispatch_cancel_escalate {env : Env} {n : Nat} {kb : KB} {e : Exc}
    (he : e = Exc.keyboardInterrupt ∨ e = Exc.userQuit)
    (hr : ctrlCRecent kb.lastCtrlCTime env.now = false)
    (hs : env.secondCancelDuringWait = true) :
    (dispatch env n kb (some e)).2.2 = some Exc.threadExc
    ∧ (dispatch env n kb (some e)).2.1.multipleCtrlC = true
    ∧ (dispatch env n kb (some e)).2.1.lastCtrlCTime = some env.now := by
  rcases he with he | he <;> subst he <;> simp [dispatch, cancelHandler, hr, hs]

/-- The cancellation handler for a plain first cancellation: the time is
recorded, `multipleCtrlC` stays as it was, and the original exception is
re-raised exactly when `forwardException` is set. -/
theorem dispatch_cancel_fresh {env : Env} {n : Nat} {kb : KB} {e : Exc}
    (he : e = Exc.keyboardInterrupt ∨ e = Exc.userQuit)
    (hr : ctrlCRecent kb.lastCtrlCTime env.now = false)
    (hs : env.secondCancelDuringWait = false) :
    (dispatch env n kb (some e)).2.2 = (if env.forwardException then some e else none)
    ∧ (dispatch env n kb (some e)).2.1.multipleCtrlC = kb.multipleCtrlC
    ∧ (dispatch env n kb (some e)).2.1.lastCtrlCTime = some env.now := by
  rcases he with he | he <;> subst he <;> simp [dispatch, cancelHandler, hr, hs]

/-- The generic handler re-raises a `sqlite3.Error` unchanged, emitting only
the blank line, when `multipleCtrlC` is unset. -/
theorem dispatch_sqlite {env : Env} {n : Nat} {kb : KB}
    (hm : kb.multipleCtrlC = false) :
    dispatch env n kb (some Exc.sqliteError) = ([Event.printBlank], kb, some Exc.sqliteError) := by
  simp [dispatch, genericHandler, hm]

theorem teardown_events (env : Env) (conf : Conf) (kb : KB) :
    (teardown env conf kb).1 = releaseLocks kb.locks
      ++ (if conf.hashDB then [Event.hashDBFlush] else [])
      ++ (if env.cleanupProvided then [Event.cleanupCall] else []) := rfl

theorem teardown_kb (env : Env) (conf : Conf) (kb : KB) :
    (teardown env conf kb).2.multiThreadMode = false
    ∧ (teardown env conf kb).2.threadContinue = true
    ∧ (teardown env conf kb).2.threadException = false
    ∧ (teardown env conf kb).2.multipleCtrlC = kb.multipleCtrlC
    ∧ (teardown env conf kb).2.lastCtrlCTime = kb.lastCtrlCTime :=
  ⟨rfl, rfl, rfl, rfl, rfl⟩

theorem teardown_count_cleanup (env : Env) (conf : Conf) (kb : KB)
    (hc : env.cleanupProvided = true) :
    ((teardown env conf kb).1).count Event.cleanupCall = 1 := by
  rw [teardown_events, List.count_append, List.count_append, releaseLocks_count_cleanup, hc]
  split <;> simp

theorem teardown_shape (env : Env) (conf : Conf) (kb : KB) :
    ∀ e ∈ (teardown env conf kb).1, e.isTeardown = true := by
  intro e he
  rw [teardown_events] at he
  rcases List.mem_append.mp he with hm | hm
  · rcases List.mem_append.mp hm with hm2 | hm2
    · rcases releaseLocksAux_shape kb.locks 0 _ hm2 with ⟨j, hj⟩
      subst hj
      rfl
    · rcases mem_ite_or hm2 with h1 | h1
      · simp at h1
        subst h1
        rfl
      · simp at h1
  · rcases mem_ite_or hm with h1 | h1
    · simp at h1
      subst h1
      rfl
    · simp at h1

/-! ### Concrete fixtures used by the witnesses -/

/-- A baseline shared state: no held locks, no recorded cancellation. -/
def kbBase : KB :=
  { multipleCtrlC := false
    threadContinue := true
    threadException := false
    multiThreadMode := false
    prependFlag := true
    lastCtrlCTime := none
    technique := none
    injectionData := []
    locks := [] }

/-- A configuration without a hash database. -/
def confNoDB : Conf := { threads := 1, hashDB := false, verbose := 1 }

/-- A single-worker call with a cleanup function and no failures. -/
def envSingle : Env :=
  { numThreads := 1
    forwardException := true
    threadChoice := false
    startThreadMsg := true
    cleanupProvided := true
    maxT := 50
    promptInputs := []
    workExc := none
    superExc := none
    startFailAt := none
    secondCancelDuringWait := false
    now := 5
    tdTechnique := none }

/-! ### The claims -/

/-- C1: whenever `runThreads` is invoked with a cleanup function and the call
terminates, the cleanup function is invoked exactly once, on every exit path
(normal completion, single cancellation, repeated cancellation, fatal
failure, the single-worker path, and paths where a classified exception was
caught) — the inputs below quantify over all of them. -/
theorem cleanup_invoked_once {env : Env} {conf0 : Conf} {kb0 : KB} {r : RunResult}
    (h : runThreads env conf0 kb0 = some r) (hc : env.cleanupProvided = true) :
    r.events.count Event.cleanupCall = 1 := by
  rcases runThreads_some h with ⟨b, htb, hev, _, _, _⟩
  rcases tryBody_cases htb with ⟨_, _, _, _, _, _, hshape⟩
  have hbody : b.events.count Event.cleanupCall = 0 := by
    rw [List.count_eq_zero]
    intro hmem
    rcases hshape _ hmem with h1 | h1 | h1 | h1 | ⟨i, h1⟩ | h1 | h1 <;> simp at h1
  have hdisp : ((dispatch env b.resolved b.kb b.exc).1).count Event.cleanupCall = 0 := by
    rw [List.count_eq_zero]
    intro hmem
    rcases (dispatch_shape env b.resolved b.kb b.exc).1 _ hmem with h1 | h1 | h1 | h1 <;>
      simp at h1
  rw [hev, List.count_append, List.count_append, hbody, hdisp,
    teardown_count_cleanup _ _ _ hc]

/-- Witness for `cleanup_invoked_once`: a plain single-worker run with a
cleanup function invokes it exactly once. -/
theorem cleanup_invoked_once_witness :
    envSingle.cleanupProvided = true
    ∧ (runThreads envSingle confNoDB kbBase).map (fun r => r.events.count Event.cleanupCall)
        = some 1 := by
  refine ⟨rfl, ?_⟩
  rcases hr : runThreads envSingle confNoDB kbBase with _ | r
  · exact absurd hr (by decide)
  · rw [Option.map_some', cleanup_invoked_once hr rfl]

/-- C8: on every terminating run the teardown actions execute exactly once
and in the fixed order — lock release first, then the hash-database flush
(when configured), then the cleanup invocation (when provided): the event
trace is a teardown-free prefix followed by exactly that suffix — and the
run-state flags are finalized to `multiThreadMode = false`,
`threadContinue = true`, `threadException = false`. -/
theorem teardown_once_ordered {env : Env} {conf0 : Conf} {kb0 : KB} {r : RunResult}
    (h : runThreads env conf0 kb0 = some r) :
    (∃ pre, (∀ e ∈ pre, e.isTeardown = false)
      ∧ r.events = pre ++ (releaseLocks kb0.locks
          ++ (if conf0.hashDB then [Event.hashDBFlush] else [])
          ++ (if env.cleanupProvided then [Event.cleanupCall] else [])))
    ∧ r.kb.multiThreadMode = false
    ∧ r.kb.threadContinue = true
    ∧ r.kb.threadException = false := by
  rcases runThreads_some h with ⟨b, htb, hev, hconf, hkb, hout⟩
  rcases tryBody_cases htb with ⟨hres, hdb, hlocks, hlast, hmc, hcases, hshape⟩
  have hdlocks : (dispatch env b.resolved b.kb b.exc).2.1.locks = kb0.locks := by
    rw [(dispatch_shape env b.resolved b.kb b.exc).2, hlocks]
    rfl
  refine ⟨⟨b.events ++ (dispatch env b.resolved b.kb b.exc).1, ?_, ?_⟩, ?_, ?_, ?_⟩
  · intro e he
    rcases List.mem_append.mp he with hm | hm
    · rcases hshape _ hm with h1 | h1 | h1 | h1 | ⟨i, h1⟩ | h1 | h1 <;> subst h1 <;> rfl
    · rcases (dispatch_shape env b.resolved b.kb b.exc).1 _ hm with h1 | h1 | h1 | h1 <;>
        subst h1 <;> rfl
  · rw [hev, teardown_events, hdlocks, hdb]
  · rw [hkb]
    exact (teardown_kb _ _ _).1
  · rw [hkb]
    exact (teardown_kb _ _ _).2.1
  · rw [hkb]
    exact (teardown_kb _ _ _).2.2.1

/-- Witness for `teardown_once_ordered` on a plain single-worker run. -/
theorem teardown_once_ordered_witness :
    (∃ pre, (∀ e ∈ pre, e.isTeardown = false)
      ∧ [Event.workCall, Event.cleanupCall] = pre ++ (releaseLocks kbBase.locks
          ++ (if confNoDB.hashDB then [Event.hashDBFlush] else [])
          ++ (if envSingle.cleanupProvided then [Event.cleanupCall] else [])))
    ∧ kbBase.multiThreadMode = false
    ∧ kbBase.threadContinue = true
    ∧ kbBase.threadException = false := by
  have hr : runThreads envSingle confNoDB kbBase
      = some { events := [Event.workCall, Event.cleanupCall]
               conf := confNoDB
               kb := kbBase
               outcome := none } := by decide
  exact teardown_once_ordered hr

/-- Locks whose release cannot fail, for comparison with an arbitrary lock
table. -/
def Lock.clearRaises (l : Lock) : Lock := { l with releaseRaises := false }

theorem releaseLocksAux_ignores_raises (locks : List Lock) :
    ∀ i, releaseLocksAux i (locks.map Lock.clearRaises) = releaseLocksAux i locks := by
  induction locks with
  | nil => intro i; rfl
  | cons l ls ih =>
      intro i
      simp only [List.map_cons, releaseLocksAux]
      rw [ih]
      rfl

theorem releaseLocks_ignores_raises (locks : List Lock) :
    releaseLocks (locks.map Lock.clearRaises) = releaseLocks locks :=
  releaseLocksAux_ignores_raises locks 0

/-- C7: at teardown, every held lock of the shared lock table receives a
release attempt and only held locks do, and the set of attempts is
insensitive to which releases would throw — so a throwing release at
position K does not prevent the attempts on the later locks. -/
theorem lock_release_complete {env : Env} {conf0 : Conf} {kb0 : KB} {r : RunResult}
    (h : runThreads env conf0 kb0 = some r) (i : Nat) (hi : i < kb0.locks.length) :
    (Event.lockReleaseAttempt i ∈ r.events ↔ (kb0.locks.get ⟨i, hi⟩).locked = true)
    ∧ releaseLocks (kb0.locks.map Lock.clearRaises) = releaseLocks kb0.locks := by
  rcases runThreads_some h with ⟨b, htb, hev, _, _, _⟩
  rcases tryBody_cases htb with ⟨_, hdb, hlocks, _, _, _, hshape⟩
  have hdlocks : (dispatch env b.resolved b.kb b.exc).2.1.locks = kb0.locks := by
    rw [(dispatch_shape env b.resolved b.kb b.exc).2, hlocks]
    rfl
  refine ⟨?_, releaseLocks_ignores_raises kb0.locks⟩
  rw [hev]
  constructor
  · intro hmem
    rcases List.mem_append.mp hmem with hm | hm
    · rcases List.mem_append.mp hm with hm2 | hm2
      · rcases hshape _ hm2 with h1 | h1 | h1 | h1 | ⟨j, h1⟩ | h1 | h1 <;> simp at h1
      · rcases (dispatch_shape env b.resolved b.kb b.exc).1 _ hm2 with h1 | h1 | h1 | h1 <;>
          simp at h1
    · rw [teardown_events] at hm
      rcases List.mem_append.mp hm with hm2 | hm2
      · rcases List.mem_append.mp hm2 with hm3 | hm3
        · rw [hdlocks] at hm3
          rcases (mem_releaseLocks _ _).mp hm3 with ⟨hi2, hl⟩
          exact hl
        · rcases mem_ite_or hm3 with h1 | h1 <;> simp at h1
      · rcases mem_ite_or hm2 with h1 | h1 <;> simp at h1
  · intro hl
    refine List.mem_append.mpr (Or.inr ?_)
    rw [teardown_events]
    refine List.mem_append.mpr (Or.inl (List.mem_append.mpr (Or.inl ?_)))
    rw [hdlocks]
    exact (mem_releaseLocks _ _).mpr ⟨hi, hl⟩

/-- A lock table with three held locks whose middle release throws. -/
def kbLocks : KB :=
  { kbBase with locks := [{ locked := true, releaseRaises := false },
                          { locked := true, releaseRaises := true },
                          { locked := true, releaseRaises := false }] }

/-- Witness for `lock_release_complete`: with three held locks and the middle
release throwing, the last lock still gets its release attempt. -/
theorem lock_release_complete_witness :
    Event.lockReleaseAttempt 2 ∈ [Event.workCall, Event.lockReleaseAttempt 0,
      Event.lockReleaseAttempt 1, Event.lockReleaseAttempt 2, Event.cleanupCall] := by
  have hr : runThreads envSingle confNoDB kbLocks
      = some { events := [Event.workCall, Event.lockReleaseAttempt 0,
                 Event.lockReleaseAttempt 1, Event.lockReleaseAttempt 2, Event.cleanupCall]
               conf := confNoDB
               kb := { kbBase with locks := [{ locked := false, releaseRaises := false },
                        { locked := true, releaseRaises := true },
                        { locked := false, releaseRaises := false }] }
               outcome := none } := by decide
  exact (lock_release_complete hr 2 (by decide)).1.mpr (by decide)

/-- C10: when the resolved thread count is 1 (single-worker mode), a
terminating `runThreads` call always returns normally, for every
`forwardException` value and every exception the work function raises
(cancellation signals and persistence-layer errors included): the `return`
inside the `finally:` of the synchronous branch discards the in-flight
exception, while the outer teardown still runs — the cleanup invocation and
the configured hash-database flush appear in the trace. -/
theorem single_worker_always_returns {env : Env} {conf0 : Conf} {kb0 : KB} {r : RunResult}
    (h : runThreads env conf0 kb0 = some r)
    (hres : resolvedThreads env conf0.threads kb0.injectionData = some 1) :
    r.outcome = none
    ∧ (env.cleanupProvided = true → Event.cleanupCall ∈ r.events)
    ∧ (conf0.hashDB = true → Event.hashDBFlush ∈ r.events) := by
  rcases runThreads_some h with ⟨b, htb, hev, hconf, hkb, hout⟩
  rcases tryBody_cases htb with ⟨hres2, hdb, hlocks, hlast, hmc, hcases, hshape⟩
  have hinj : (kbInit env kb0).injectionData = kb0.injectionData := rfl
  rw [hinj, hres] at hres2
  have hb1 : b.resolved = 1 := by
    injection hres2 with hres2
    omega
  rcases hcases with ⟨_, hexc, _, _, _⟩ | ⟨hgt, _, _, _⟩
  · refine ⟨?_, ?_, ?_⟩
    · rw [hout, hexc]
      rfl
    · intro hc
      rw [hev]
      refine List.mem_append.mpr (Or.inr ?_)
      rw [teardown_events]
      refine List.mem_append.mpr (Or.inr ?_)
      simp [hc]
    · intro hdbtrue
      rw [hev]
      refine List.mem_append.mpr (Or.inr ?_)
      rw [teardown_events]
      refine List.mem_append.mpr (Or.inl (List.mem_append.mpr (Or.inr ?_)))
      simp [hdb.trans hdbtrue]
  · omega

/-- A single-worker run whose work function raises a persistence-layer error,
with a configured hash database. -/
def envSingleSq : Env := { envSingle with workExc := some Exc.sqliteError }

/-- A configuration with a hash database. -/
def confDB : Conf := { threads := 1, hashDB := true, verbose := 1 }

/-- The run result of `envSingleSq` over `confDB` and `kbBase`. -/
def rSq : RunResult :=
  { events := [Event.workCall, Event.hashDBClose, Event.hashDBFlush, Event.cleanupCall]
    conf := confDB
    kb := kbBase
    outcome := none }

/-- Witness for `single_worker_always_returns`: the sqlite error raised by
the work function is discarded and teardown still runs. -/
theorem single_worker_always_returns_witness :
    rSq.outcome = none
    ∧ Event.cleanupCall ∈ rSq.events
    ∧ Event.hashDBFlush ∈ rSq.events := by
  have hr : runThreads envSingleSq confDB kbBase = some rSq := by decide
  have h := single_worker_always_returns hr (by decide)
  exact ⟨h.1, h.2.1 rfl, h.2.2 rfl⟩

/-- A call passing `numThreads = 1` with the interactive thread choice
enabled, where the user answers "4". -/
def envResize : Env := { envSingle with threadChoice := true, promptInputs := [['4']] }

/-- C2 counterexample: a call with `numThreads = 1` (and `threadChoice`
enabled, the prompt answering "4") spawns concurrent worker threads — so the
claim that every `runThreads(numThreads=1, ...)` call spawns no worker is
false as stated. -/
theorem single_worker_call_spawns_counterexample :
    envResize.numThreads = 1
    ∧ (runThreads envResize confNoDB kbBase).map (fun r => decide (Event.spawn 0 ∈ r.events))
        = some true :=
  ⟨rfl, by decide⟩

/-- C2 amended: for every call on which the thread count in force after the
optional interactive prompt is 1 (in particular every `numThreads = 1` call
with `threadChoice` disabled), no concurrent worker thread is spawned, the
work function is invoked exactly once synchronously, and when it raises
UserQuit or SkipTarget the run returns normally with no error logged. -/
theorem single_worker_sync {env : Env} {conf0 : Conf} {kb0 : KB} {r : RunResult}
    (h : runThreads env conf0 kb0 = some r)
    (hres : resolvedThreads env conf0.threads kb0.injectionData = some 1) :
    (∀ i, Event.spawn i ∉ r.events)
    ∧ r.events.count Event.workCall = 1
    ∧ ((env.workExc = some Exc.userQuit ∨ env.workExc = some Exc.skipTarget) →
        r.outcome = none ∧ Event.logError ∉ r.events) := by
  rcases runThreads_some h with ⟨b, htb, hev, hconf, hkb, hout⟩
  rcases tryBody_cases htb with ⟨hres2, hdb, hlocks, hlast, hmc, hcases, hshape⟩
  have hinj : (kbInit env kb0).injectionData = kb0.injectionData := rfl
  rw [hinj, hres] at hres2
  have hb1 : b.resolved = 1 := by
    injection hres2 with hres2
    omega
  rcases hcases with ⟨_, hexc, _, hcount, hspawn⟩ | ⟨hgt, _, _, _⟩
  · have hdispev : (dispatch env b.resolved b.kb b.exc).1 = [] := by
      rw [hexc]
      rfl
    refine ⟨?_, ?_, ?_⟩
    · intro i hmem
      rw [hev] at hmem
      rcases List.mem_append.mp hmem with hm | hm
      · rcases List.mem_append.mp hm with hm2 | hm2
        · exact hspawn i hm2
        · rw [hdispev] at hm2
          simp at hm2
      · have := teardown_shape _ _ _ _ hm
        simp [Event.isTeardown] at this
    · rw [hev, List.count_append, List.count_append, hcount, hdispev]
      have htd : ((teardown env b.conf (dispatch env b.resolved b.kb b.exc).2.1).1).count
          Event.workCall = 0 := by
        rw [List.count_eq_zero]
        intro hmem
        have := teardown_shape _ _ _ _ hmem
        simp [Event.isTeardown] at this
      rw [htd]
      simp
    · intro _
      refine ⟨by rw [hout, hexc]; rfl, ?_⟩
      intro hmem
      rw [hev] at hmem
      rcases List.mem_append.mp hmem with hm | hm
      · rcases List.mem_append.mp hm with hm2 | hm2
        · rcases hshape _ hm2 with h1 | h1 | h1 | h1 | ⟨j, h1⟩ | h1 | h1 <;> simp at h1
        · rw [hdispev] at hm2
          simp at hm2
      · have := teardown_shape _ _ _ _ hm
        simp [Event.isTeardown] at this
  · omega

/-- A single-worker run whose work function raises the user-quit signal. -/
def envSingleUQ : Env := { envSingle with workExc := some Exc.userQuit }

/-- The run result of `envSingleUQ` over `confNoDB` and `kbBase`. -/
def rUQ : RunResult :=
  { events := [Event.workCall, Event.cleanupCall]
    conf := confNoDB
    kb := kbBase
    outcome := none }

/-- Witness for `single_worker_sync`: a `numThreads = 1` run whose work
raises UserQuit spawns nothing, calls the work function once and returns
normally without logging an error. -/
theorem single_worker_sync_witness :
    Event.spawn 0 ∉ rUQ.events
    ∧ rUQ.events.count Event.workCall = 1
    ∧ envSingleUQ.workExc = some Exc.userQuit
    ∧ rUQ.outcome = none
    ∧ Event.logError ∉ rUQ.events := by
  have hr : runThreads envSingleUQ confNoDB kbBase = some rUQ := by decide
  have h := single_worker_sync hr (by decide)
  have h3 := h.2.2 (Or.inl rfl)
  exact ⟨h.1 0, h.2.1, rfl, h3.1, h3.2⟩

/-- C5 counterexample: in a single-worker run whose work function raises
`sqlite3.Error`, the error is not re-raised to the caller — the run returns
normally (the `return` in the `finally:` of the synchronous branch discards
it) — refuting the claim that a persistence-layer failure is always re-raised
for every run. -/
theorem sqlite_swallowed_single_counterexample :
    envSingleSq.workExc = some Exc.sqliteError
    ∧ envSingleSq.forwardException = true
    ∧ (runThreads envSingleSq confDB kbBase).map (fun r => r.outcome) = some none :=
  ⟨rfl, rfl, by decide⟩

/-- C5 amended: in multi-worker mode, a `sqlite3.Error` escaping to the
supervisor is re-raised to the caller unchanged, bypassing the generic
unexpected-failure classification — no error is logged and no traceback is
printed; in the single-worker branch the error is instead discarded by the
`return` in the `finally:` block. -/
theorem sqlite_reraised_multi {env : Env} {conf0 : Conf} {kb0 : KB} {r : RunResult} {n : Nat}
    (h : runThreads env conf0 kb0 = some r)
    (hres : resolvedThreads env conf0.threads kb0.injectionData = some n)
    (hn : 1 < n)
    (hs : env.superExc = some Exc.sqliteError) :
    r.outcome = some Exc.sqliteError
    ∧ Event.logError ∉ r.events
    ∧ Event.traceback ∉ r.events := by
  rcases runThreads_some h with ⟨b, htb, hev, hconf, hkb, hout⟩
  rcases tryBody_cases htb with ⟨hres2, hdb, hlocks, hlast, hmc, hcases, hshape⟩
  have hinj : (kbInit env kb0).injectionData = kb0.injectionData := rfl
  rw [hinj, hres] at hres2
  have hbn : b.resolved = n := by
    injection hres2 with hres2
    omega
  rcases hcases with ⟨hle, _, _, _, _⟩ | ⟨hgt, hexc, hbkb, _⟩
  · omega
  · have hmcf : b.kb.multipleCtrlC = false := hmc.trans rfl
    have hde : dispatch env b.resolved b.kb b.exc
        = ([Event.printBlank], b.kb, some Exc.sqliteError) := by
      rw [hexc, hs]
      exact dispatch_sqlite hmcf
    refine ⟨by rw [hout, hde], ?_, ?_⟩
    · intro hmem
      rw [hev, hde] at hmem
      rcases List.mem_append.mp hmem with hm | hm
      · rcases List.mem_append.mp hm with hm2 | hm2
        · rcases hshape _ hm2 with h1 | h1 | h1 | h1 | ⟨j, h1⟩ | h1 | h1 <;> simp at h1
        · simp at hm2
      · have := teardown_shape _ _ _ _ hm
        simp [Event.isTeardown] at this
    · intro hmem
      rw [hev, hde] at hmem
      rcases List.mem_append.mp hmem with hm | hm
      · rcases List.mem_append.mp hm with hm2 | hm2
        · rcases hshape _ hm2 with h1 | h1 | h1 | h1 | ⟨j, h1⟩ | h1 | h1 <;> simp at h1
        · simp at hm2
      · have := teardown_shape _ _ _ _ hm
        simp [Event.isTeardown] at this

/-- A two-worker run where a `sqlite3.Error` escapes to the supervisor. -/
def envMultiSq : Env := { envSingle with numThreads := 2, superExc := some Exc.sqliteError }

/-- Witness for `sqlite_reraised_multi` on a two-worker run. -/
theorem sqlite_reraised_multi_witness :
    (runThreads envMultiSq confNoDB kbBase).map
      (fun r => (r.outcome, decide (Event.logError ∈ r.events)))
      = some (some Exc.sqliteError, false) := by
  rcases hr : runThreads envMultiSq confNoDB kbBase with _ | r
  · exact absurd hr (by decide)
  · rw [Option.map_some']
    have h := sqlite_reraised_multi hr
      (show resolvedThreads envMultiSq confNoDB.threads kbBase.injectionData = some 2 by decide)
      (by decide) rfl
    rw [h.1, decide_eq_false h.2.1]

/-- C3: cancellation escalation.  A second cancellation signal delivered
while the first is still being handled raises the distinguished repeated
cancellation condition with `multipleCtrlC` set: when the previous signal is
recorded less than 1 time unit ago (`ctrlCRecent`), the handler escalates at
entry (first clause); when a second interrupt arrives during the still
active wait for the workers, it escalates regardless (second clause, which
covers signals less than 1 unit apart within one wait).  When the window has
elapsed (`ctrlCRecent` false, i.e. the signals are more than 1 unit apart)
and no second interrupt arrives within the active wait, the signal is
treated as a fresh first cancellation: no escalation, the time is recorded,
and the interrupt propagates only per `forwardException` (third clause). -/
theorem cancellation_escalation {env : Env} {conf0 : Conf} {kb0 : KB} {r : RunResult} {n : Nat}
    (h : runThreads env conf0 kb0 = some r)
    (hres : resolvedThreads env conf0.threads kb0.injectionData = some n)
    (hn : 1 < n)
    (hki : env.superExc = some Exc.keyboardInterrupt) :
    (ctrlCRecent kb0.lastCtrlCTime env.now = true →
       r.outcome = some Exc.userQuit ∧ r.kb.multipleCtrlC = true)
    ∧ (ctrlCRecent kb0.lastCtrlCTime env.now = false → env.secondCancelDuringWait = true →
       r.outcome = some Exc.threadExc ∧ r.kb.multipleCtrlC = true)
    ∧ (ctrlCRecent kb0.lastCtrlCTime env.now = false → env.secondCancelDuringWait = false →
       r.kb.multipleCtrlC = false ∧ r.kb.lastCtrlCTime = some env.now
       ∧ r.outcome = (if env.forwardException then some Exc.keyboardInterrupt else none)) := by
  rcases runThreads_some h with ⟨b, htb, hev, hconf, hkb, hout⟩
  rcases tryBody_cases htb with ⟨hres2, hdb, hlocks, hlast, hmc, hcases, hshape⟩
  have hinj : (kbInit env kb0).injectionData = kb0.injectionData := rfl
  rw [hinj, hres] at hres2
  have hbn : b.resolved = n := by
    injection hres2 with hres2
    omega
  rcases hcases with ⟨hle, _, _, _, _⟩ | ⟨hgt, hexc, hbkb, _⟩
  · omega
  · have hlast0 : b.kb.lastCtrlCTime = kb0.lastCtrlCTime := hlast.trans rfl
    have hmcf : b.kb.multipleCtrlC = false := hmc.trans rfl
    have hexc2 : b.exc = some Exc.keyboardInterrupt := hexc.trans hki
    refine ⟨?_, ?_, ?_⟩
    · intro hr1
      have hd := @dispatch_cancel_recent env b.resolved b.kb Exc.keyboardInterrupt
        (Or.inl rfl) (by rw [hlast0]; exact hr1)
      constructor
      · rw [hout, hexc2]
        exact hd.1
      · rw [hkb, hexc2, (teardown_kb _ _ _).2.2.2.1]
        exact hd.2
    · intro hr1 hs1
      have hd := @dispatch_cancel_escalate env b.resolved b.kb Exc.keyboardInterrupt
        (Or.inl rfl) (by rw [hlast0]; exact hr1) hs1
      constructor
      · rw [hout, hexc2]
        exact hd.1
      · rw [hkb, hexc2, (teardown_kb _ _ _).2.2.2.1]
        exact hd.2.1
    · intro hr1 hs1
      have hd := @dispatch_cancel_fresh env b.resolved b.kb Exc.keyboardInterrupt
        (Or.inl rfl) (by rw [hlast0]; exact hr1) hs1
      refine ⟨?_, ?_, ?_⟩
      · rw [hkb, hexc2, (teardown_kb _ _ _).2.2.2.1, hd.2.1]
        exact hmcf
      · rw [hkb, hexc2, (teardown_kb _ _ _).2.2.2.2]
        exact hd.2.2
      · rw [hout, hexc2]
        exact hd.1

/-- A two-worker run interrupted by Ctrl+C, with a second interrupt arriving
during the wait for the workers. -/
def envCancel : Env :=
  { envSingle with numThreads := 2, superExc := some Exc.keyboardInterrupt,
                   secondCancelDuringWait := true }

/-- Witness for `cancellation_escalation`: with no prior cancellation on
record and a second interrupt during the active wait, the run raises the
repeated-cancellation condition with `multipleCtrlC` set. -/
theorem cancellation_escalation_witness :
    (runThreads envCancel confNoDB kbBase).map (fun r => (r.outcome, r.kb.multipleCtrlC))
      = some (some Exc.threadExc, true) := by
  rcases hr : runThreads envCancel confNoDB kbBase with _ | r
  · exact absurd hr (by decide)
  · rw [Option.map_some']
    have h := cancellation_escalation hr
      (show resolvedThreads envCancel confNoDB.threads kbBase.injectionData = some 2 by decide)
      (by decide) rfl
    have h2 := h.2.1 (by decide) rfl
    rw [h2.1, h2.2]

/-- C6: with `forwardException = false`, the repeated-cancellation condition
is still raised to the caller — both when a second interrupt arrives during
the active wait and when the previous cancellation is within the escalation
window — whereas a plain single cancellation makes the run return normally
after teardown (the cleanup still appears in the trace). -/
theorem repeated_cancel_overrides_forward {env : Env} {conf0 : Conf} {kb0 : KB} {r : RunResult}
    {n : Nat}
    (h : runThreads env conf0 kb0 = some r)
    (hres : resolvedThreads env conf0.threads kb0.injectionData = some n)
    (hn : 1 < n)
    (hki : env.superExc = some Exc.keyboardInterrupt)
    (hff : env.forwardException = false) :
    (ctrlCRecent kb0.lastCtrlCTime env.now = false → env.secondCancelDuringWait = true →
       r.outcome = some Exc.threadExc)
    ∧ (ctrlCRecent kb0.lastCtrlCTime env.now = true → r.outcome = some Exc.userQuit)
    ∧ (ctrlCRecent kb0.lastCtrlCTime env.now = false → env.secondCancelDuringWait = false →
       r.outcome = none ∧ (env.cleanupProvided = true → Event.cleanupCall ∈ r.events)) := by
  rcases runThreads_some h with ⟨b, htb, hev, hconf, hkb, hout⟩
  rcases tryBody_cases htb with ⟨hres2, hdb, hlocks, hlast, hmc, hcases, hshape⟩
  have hinj : (kbInit env kb0).injectionData = kb0.injectionData := rfl
  rw [hinj, hres] at hres2
  have hbn : b.resolved = n := by
    injection hres2 with hres2
    omega
  rcases hcases with ⟨hle, _, _, _, _⟩ | ⟨hgt, hexc, hbkb, _⟩
  · omega
  · have hlast0 : b.kb.lastCtrlCTime = kb0.lastCtrlCTime := hlast.trans rfl
    have hexc2 : b.exc = some Exc.keyboardInterrupt := hexc.trans hki
    refine ⟨?_, ?_, ?_⟩
    · intro hr1 hs1
      have hd := @dispatch_cancel_escalate env b.resolved b.kb Exc.keyboardInterrupt
        (Or.inl rfl) (by rw [hlast0]; exact hr1) hs1
      rw [hout, hexc2]
      exact hd.1
    · intro hr1
      have hd := @dispatch_cancel_recent env b.resolved b.kb Exc.keyboardInterrupt
        (Or.inl rfl) (by rw [hlast0]; exact hr1)
      rw [hout, hexc2]
      exact hd.1
    · intro hr1 hs1
      have hd := @dispatch_cancel_fresh env b.resolved b.kb Exc.keyboardInterrupt
        (Or.inl rfl) (by rw [hlast0]; exact hr1) hs1
      constructor
      · rw [hout, hexc2, hd.1, hff]
        simp
      · intro hc
        rw [hev]
        refine List.mem_append.mpr (Or.inr ?_)
        rw [teardown_events]
        refine List.mem_append.mpr (Or.inr ?_)
        simp [hc]

/-- The interrupted two-worker run with the suppression flag set. -/
def envCancelNF : Env := { envCancel with forwardException := false }

/-- Witness for `repeated_cancel_overrides_forward`: the repeated
cancellation is raised even though `forwardException` is false. -/
theorem repeated_cancel_overrides_forward_witness :
    envCancelNF.forwardException = false
    ∧ (runThreads envCancelNF confNoDB kbBase).map (fun r => r.outcome)
        = some (some Exc.threadExc) := by
  refine ⟨rfl, ?_⟩
  rcases hr : runThreads envCancelNF confNoDB kbBase with _ | r
  · exact absurd hr (by decide)
  · rw [Option.map_some']
    have h := repeated_cancel_overrides_forward hr
      (show resolvedThreads envCancelNF confNoDB.threads kbBase.injectionData = some 2 by decide)
      (by decide) rfl rfl
    rw [h.1 (by decide) rfl]
